import Mathlib

/-!
Shallow embedding of the single-qubit Bloch-sphere simulator core
(`math.js` and its variant): complex arithmetic, state ↔ Bloch conversion,
matrix-vector application, defensive normalization, the fixed gate library,
and the composed coordinate-level gate operations.  JavaScript numbers are
modelled as real numbers; the thrown `Error`s are modelled as an explicit
error type via `Except`.
-/

namespace BlochSim

noncomputable section

/-- Complex number record `{ re, im }` from the source. -/
@[ext]
structure Cx where
  re : ℝ
  im : ℝ

/-- `C(re, im)` constructor helper from the source. -/
def C (re : ℝ) (im : ℝ) : Cx := ⟨re, im⟩

/-- `add(a, b)` componentwise complex addition. -/
def add (a b : Cx) : Cx := C (a.re + b.re) (a.im + b.im)

/-- `sub(a, b)` componentwise complex subtraction. -/
def sub (a b : Cx) : Cx := C (a.re - b.re) (a.im - b.im)

/-- `mul(a, b)`: `(ac - bd) + i(ad + bc)`. -/
def mul (a b : Cx) : Cx :=
  C (a.re * b.re - a.im * b.im) (a.re * b.im + a.im * b.re)

/-- `scale(a, k)` with `k` real. -/
def scale (a : Cx) (k : ℝ) : Cx := C (a.re * k) (a.im * k)

/-- `conj(a)`: negate the imaginary part. -/
def conj (a : Cx) : Cx := C a.re (-a.im)

/-- `abs2(a)`: squared magnitude `re² + im²`. -/
def abs2 (a : Cx) : ℝ := a.re * a.re + a.im * a.im

/-- The 3D coordinate triple (the source returns a `THREE.Vector3`; only its
`x`, `y`, `z` components matter to the math core). -/
@[ext]
structure Vec3 where
  x : ℝ
  y : ℝ
  z : ℝ

/-- The errors thrown by the math core, named as in the spec:
`invalidDimension` for a state without exactly 2 amplitudes,
`dimensionMismatch` for a matrix whose column count differs from
the vector length, and `matrixFormat` for `mat[0]` not being an array
(e.g. an empty matrix). -/
inductive MathError where
  | invalidDimension
  | dimensionMismatch
  | matrixFormat
deriving DecidableEq

/-- JavaScript `Math.atan2(y, x)`: the angle of the point `(x, y)` in
`(-π, π]`, with `atan2(0, 0) = 0`; this is exactly `Complex.arg (x + y·i)`. -/
def atan2 (y x : ℝ) : ℝ := Complex.arg ⟨x, y⟩

/-- `stateToBloch(state)`: requires exactly 2 amplitudes, else throws
(`invalidDimension`); computes `p = conj(α)·β` and returns
`(2·Re p, 2·Im p, |α|² - |β|²)`. -/
def stateToBloch (state : List Cx) : Except MathError Vec3 :=
  match state with
  | [alpha, beta] =>
      let alphaBeta := mul (conj alpha) beta
      Except.ok ⟨2 * alphaBeta.re, 2 * alphaBeta.im, abs2 alpha - abs2 beta⟩
  | _ => Except.error MathError.invalidDimension

/-- `blochToState({x,y,z})`: degenerate fallback to `|0⟩` when
`‖(x,y,z)‖ < 1e-9`, otherwise the spherical-angle construction. -/
def blochToState (v : Vec3) : List Cx :=
  let norm := Real.sqrt (v.x * v.x + v.y * v.y + v.z * v.z)
  if norm < 1e-9 then [C 1 0, C 0 0]
  else
    let xn := v.x / norm
    let yn := v.y / norm
    let zn := v.z / norm
    let theta := Real.arccos zn
    let phi := atan2 yn xn
    [C (Real.cos (theta / 2)) 0,
     C (Real.sin (theta / 2) * Real.cos phi) (Real.sin (theta / 2) * Real.sin phi)]

/-- One row of the matrix-vector product: the inner loop
`for c in 0..cols-1: acc = add(acc, mul(mat[r][c], vec[c]))`.
(Out-of-range accesses default to `C 0 0`; in the source they would be
runtime type errors, but every call in the program is within range.) -/
def dotRow (row vec : List Cx) (cols : ℕ) : Cx :=
  (List.range cols).foldl
    (fun acc c => add acc (mul (row.getD c (C 0 0)) (vec.getD c (C 0 0)))) (C 0 0)

/-- `matrixVectorMultiply(mat, vec)`: throws `matrixFormat` when `mat[0]` is
not an array (empty matrix), throws `dimensionMismatch` when
`vec.length ≠ mat[0].length`, else returns the row-by-row product. -/
def matrixVectorMultiply (mat : List (List Cx)) (vec : List Cx) :
    Except MathError (List Cx) :=
  match mat with
  | [] => Except.error MathError.matrixFormat
  | row0 :: _ =>
      if vec.length = row0.length then
        Except.ok (mat.map (fun row => dotRow row vec row0.length))
      else Except.error MathError.dimensionMismatch

/-- `normalize(vector)`: sum of squared magnitudes; below `1e-12` return the
vector unchanged, otherwise scale every component by `1/sqrt(sum)`. -/
def normalize (vec : List Cx) : List Cx :=
  let s := (vec.map abs2).sum
  if s < 1e-12 then vec
  else
    let norm := 1 / Real.sqrt s
    vec.map (fun v => scale v norm)

/-- Pauli-X matrix. -/
def PAULI_X : List (List Cx) :=
  [[C 0 0, C 1 0],
   [C 1 0, C 0 0]]

/-- Pauli-Y matrix. -/
def PAULI_Y : List (List Cx) :=
  [[C 0 0, C 0 (-1)],
   [C 0 1, C 0 0]]

/-- Pauli-Z matrix. -/
def PAULI_Z : List (List Cx) :=
  [[C 1 0, C 0 0],
   [C 0 0, C (-1) 0]]

/-- `H = 1/Math.sqrt(2)`. -/
def H : ℝ := 1 / Real.sqrt 2

/-- Hadamard matrix. -/
def HADAMARD : List (List Cx) :=
  [[C H 0, C H 0],
   [C H 0, C (-H) 0]]

/-- S gate: diagonal `(1, i)`. -/
def S_GATE : List (List Cx) :=
  [[C 1 0, C 0 0],
   [C 0 0, C 0 1]]

/-- `T_ANGLE = Math.PI / 4`. -/
def T_ANGLE : ℝ := Real.pi / 4

/-- T gate: diagonal `(1, cos(π/4) + i·sin(π/4))`. -/
def T_GATE : List (List Cx) :=
  [[C 1 0, C 0 0],
   [C 0 0, C (Real.cos T_ANGLE) (Real.sin T_ANGLE)]]

/-- `PHASE_GATE(theta)`: diagonal `(1, cos θ + i·sin θ)`. -/
def PHASE_GATE (theta : ℝ) : List (List Cx) :=
  [[C 1 0, C 0 0],
   [C 0 0, C (Real.cos theta) (Real.sin theta)]]

/-- `applyGate(gateMatrix, stateVector)` is `matrixVectorMultiply`. -/
def applyGate (gateMatrix : List (List Cx)) (stateVector : List Cx) :
    Except MathError (List Cx) :=
  matrixVectorMultiply gateMatrix stateVector

/-- `applyAndConvert(cartesian, gateMatrix)` as the source writes it:
convert, apply the matrix, convert back.  (Note: the source does NOT
call `normalize` here.) -/
def applyAndConvert (cartesian : Vec3) (gateMatrix : List (List Cx)) :
    Except MathError Vec3 :=
  (applyGate gateMatrix (blochToState cartesian)).bind stateToBloch

/-- Modelled from the spec: §4.4 describes `applyAndConvert` as converting,
applying the matrix, RENORMALIZING, and converting back.  This definition
follows the spec's words (it inserts the `normalize` step that is absent
from the source's `applyAndConvert`), for comparison with the source. -/
def applyAndConvertSpec (cartesian : Vec3) (gateMatrix : List (List Cx)) :
    Except MathError Vec3 :=
  (applyGate gateMatrix (blochToState cartesian)).bind
    (fun st => stateToBloch (normalize st))

/-- `applyPauliX(blochVec)`: convert, apply Pauli-X, normalize, convert back. -/
def applyPauliX (blochVec : Vec3) : Except MathError Vec3 :=
  (applyGate PAULI_X (blochToState blochVec)).bind
    (fun st => stateToBloch (normalize st))

/-- `applyPauliY(blochVec)`. -/
def applyPauliY (blochVec : Vec3) : Except MathError Vec3 :=
  (applyGate PAULI_Y (blochToState blochVec)).bind
    (fun st => stateToBloch (normalize st))

/-- `applyPauliZ(blochVec)`. -/
def applyPauliZ (blochVec : Vec3) : Except MathError Vec3 :=
  (applyGate PAULI_Z (blochToState blochVec)).bind
    (fun st => stateToBloch (normalize st))

/-- `applyHadamard(blochVec)`. -/
def applyHadamard (blochVec : Vec3) : Except MathError Vec3 :=
  (applyGate HADAMARD (blochToState blochVec)).bind
    (fun st => stateToBloch (normalize st))

/-- `applySGate(blochVec)`. -/
def applySGate (blochVec : Vec3) : Except MathError Vec3 :=
  (applyGate S_GATE (blochToState blochVec)).bind
    (fun st => stateToBloch (normalize st))

/-- `applyTGate(blochVec)`. -/
def applyTGate (blochVec : Vec3) : Except MathError Vec3 :=
  (applyGate T_GATE (blochToState blochVec)).bind
    (fun st => stateToBloch (normalize st))

/-- `applyPhaseGate(blochVec, theta)`. -/
def applyPhaseGate (blochVec : Vec3) (theta : ℝ) : Except MathError Vec3 :=
  (applyGate (PHASE_GATE theta) (blochToState blochVec)).bind
    (fun st => stateToBloch (normalize st))

/-- Twice the identity: an ad-hoc (non-unitary) caller-supplied matrix,
used to separate `applyAndConvert` from the spec's renormalizing version. -/
def DOUBLE_IDENTITY : List (List Cx) :=
  [[C 2 0, C 0 0],
   [C 0 0, C 2 0]]

/-- "The result is `ok` and its coordinate has squared length 1." -/
def unitOut (r : Except MathError Vec3) : Prop :=
  ∃ w : Vec3, r = Except.ok w ∧ w.x * w.x + w.y * w.y + w.z * w.z = 1

/-! ### Evaluation lemmas for the embedded operations -/

lemma scale_one (a : Cx) : scale a 1 = a := by
  cases a
  simp [scale, C]

lemma stateToBloch_pair (p q : Cx) :
    stateToBloch [p, q] =
      Except.ok ⟨2 * (mul (conj p) q).re, 2 * (mul (conj p) q).im,
        abs2 p - abs2 q⟩ := rfl

lemma applyGate_two (g00 g01 g10 g11 p q : Cx) :
    applyGate [[g00, g01], [g10, g11]] [p, q] =
      Except.ok [add (add (C 0 0) (mul g00 p)) (mul g01 q),
                 add (add (C 0 0) (mul g10 p)) (mul g11 q)] := rfl

lemma normalize_unit_sum (vec : List Cx) (h : (vec.map abs2).sum = 1) :
    normalize vec = vec := by
  simp only [normalize, h]
  rw [if_neg (by norm_num)]
  simp [Real.sqrt_one, scale_one]

lemma sqrt_mul_cos_atan2 (x y : ℝ) :
    Real.sqrt (x * x + y * y) * Real.cos (atan2 y x) = x := by
  by_cases h : (⟨x, y⟩ : ℂ) = 0
  · have hx : x = 0 := by simpa using congrArg Complex.re h
    have hy : y = 0 := by simpa using congrArg Complex.im h
    simp [hx, hy]
  · have habs : Real.sqrt (x * x + y * y) = Complex.abs ⟨x, y⟩ := by
      rw [Complex.abs_apply, Complex.normSq_mk]
    have hne : Complex.abs ⟨x, y⟩ ≠ 0 :=
      fun h0 => h (Complex.abs.eq_zero.mp h0)
    rw [atan2, habs, Complex.cos_arg h]
    field_simp

lemma sqrt_mul_sin_atan2 (x y : ℝ) :
    Real.sqrt (x * x + y * y) * Real.sin (atan2 y x) = y := by
  by_cases h : (⟨x, y⟩ : ℂ) = 0
  · have hx : x = 0 := by simpa using congrArg Complex.re h
    have hy : y = 0 := by simpa using congrArg Complex.im h
    simp [hx, hy]
  · have habs : Real.sqrt (x * x + y * y) = Complex.abs ⟨x, y⟩ := by
      rw [Complex.abs_apply, Complex.normSq_mk]
    have hne : Complex.abs ⟨x, y⟩ ≠ 0 :=
      fun h0 => h (Complex.abs.eq_zero.mp h0)
    rw [atan2, habs, Complex.sin_arg]
    field_simp

/-! ### The spherical decomposition of `blochToState` on unit inputs -/

lemma bloch_coords (v : Vec3) (hv : v.x * v.x + v.y * v.y + v.z * v.z = 1) :
    ∃ a b1 b2 : ℝ,
      blochToState v = [C a 0, C b1 b2] ∧
      2 * (a * b1) = v.x ∧
      2 * (a * b2) = v.y ∧
      a * a - (b1 * b1 + b2 * b2) = v.z ∧
      a * a + (b1 * b1 + b2 * b2) = 1 := by
  have hnorm : Real.sqrt (v.x * v.x + v.y * v.y + v.z * v.z) = 1 := by
    rw [hv]; exact Real.sqrt_one
  have hz1 : v.z ≤ 1 := by
    nlinarith [mul_self_nonneg v.x, mul_self_nonneg v.y,
      mul_self_nonneg (v.z - 1), mul_self_nonneg (v.z + 1)]
  have hzm : -1 ≤ v.z := by
    nlinarith [mul_self_nonneg v.x, mul_self_nonneg v.y,
      mul_self_nonneg (v.z - 1), mul_self_nonneg (v.z + 1)]
  refine ⟨Real.cos (Real.arccos v.z / 2),
    Real.sin (Real.arccos v.z / 2) * Real.cos (atan2 v.y v.x),
    Real.sin (Real.arccos v.z / 2) * Real.sin (atan2 v.y v.x),
    ?_, ?_, ?_, ?_, ?_⟩
  · simp only [blochToState, hnorm]
    rw [if_neg (by norm_num)]
    simp only [div_one]
  · have ht : Real.sin (Real.arccos v.z) =
        2 * Real.sin (Real.arccos v.z / 2) * Real.cos (Real.arccos v.z / 2) := by
      conv_lhs => rw [show Real.arccos v.z = 2 * (Real.arccos v.z / 2) by ring]
      exact Real.sin_two_mul _
    have hs : Real.sin (Real.arccos v.z) = Real.sqrt (v.x * v.x + v.y * v.y) := by
      rw [Real.sin_arccos]
      congr 1
      linear_combination -hv
    have := sqrt_mul_cos_atan2 v.x v.y
    rw [← hs, ht] at this
    linear_combination this
  · have ht : Real.sin (Real.arccos v.z) =
        2 * Real.sin (Real.arccos v.z / 2) * Real.cos (Real.arccos v.z / 2) := by
      conv_lhs => rw [show Real.arccos v.z = 2 * (Real.arccos v.z / 2) by ring]
      exact Real.sin_two_mul _
    have hs : Real.sin (Real.arccos v.z) = Real.sqrt (v.x * v.x + v.y * v.y) := by
      rw [Real.sin_arccos]
      congr 1
      linear_combination -hv
    have := sqrt_mul_sin_atan2 v.x v.y
    rw [← hs, ht] at this
    linear_combination this
  · have hc : Real.cos (Real.arccos v.z) = v.z := Real.cos_arccos hzm hz1
    have hct : Real.cos (Real.arccos v.z) =
        2 * Real.cos (Real.arccos v.z / 2) ^ 2 - 1 := by
      conv_lhs => rw [show Real.arccos v.z = 2 * (Real.arccos v.z / 2) by ring]
      exact Real.cos_two_mul _
    have hpy : Real.sin (Real.arccos v.z / 2) ^ 2 +
        Real.cos (Real.arccos v.z / 2) ^ 2 = 1 := Real.sin_sq_add_cos_sq _
    have hph : Real.sin (atan2 v.y v.x) ^ 2 +
        Real.cos (atan2 v.y v.x) ^ 2 = 1 := Real.sin_sq_add_cos_sq _
    linear_combination (-(Real.sin (Real.arccos v.z / 2) *
      Real.sin (Real.arccos v.z / 2))) * hph - hct - hpy + hc
  · have hpy : Real.sin (Real.arccos v.z / 2) ^ 2 +
        Real.cos (Real.arccos v.z / 2) ^ 2 = 1 := Real.sin_sq_add_cos_sq _
    have hph : Real.sin (atan2 v.y v.x) ^ 2 +
        Real.cos (atan2 v.y v.x) ^ 2 = 1 := Real.sin_sq_add_cos_sq _
    linear_combination (Real.sin (Real.arccos v.z / 2) *
      Real.sin (Real.arccos v.z / 2)) * hph + hpy

/-- Core evaluation of one composed gate application on an explicit
2-amplitude state whose image under the gate is the unit-norm pair
`[p', q']`. -/
lemma applyGateNormBloch (g00 g01 g10 g11 p q p' q' : Cx)
    (hp : add (add (C 0 0) (mul g00 p)) (mul g01 q) = p')
    (hq : add (add (C 0 0) (mul g10 p)) (mul g11 q) = q')
    (hsum : abs2 p' + abs2 q' = 1) :
    (applyGate [[g00, g01], [g10, g11]] [p, q]).bind
        (fun st => stateToBloch (normalize st)) =
      Except.ok ⟨2 * (mul (conj p') q').re, 2 * (mul (conj p') q').im,
        abs2 p' - abs2 q'⟩ := by
  have h1 : applyGate [[g00, g01], [g10, g11]] [p, q] = Except.ok [p', q'] := by
    rw [applyGate_two, hp, hq]
  rw [h1]
  show stateToBloch (normalize [p', q']) = _
  rw [normalize_unit_sum]
  · exact stateToBloch_pair p' q'
  · simpa using hsum

/-! ### Exact Bloch-sphere action of each composed gate operation -/

lemma applyPauliX_unit (v : Vec3) (hv : v.x * v.x + v.y * v.y + v.z * v.z = 1) :
    applyPauliX v = Except.ok ⟨v.x, -v.y, -v.z⟩ := by
  obtain ⟨a, b1, b2, hbs, hx, hy, hz, hu⟩ := bloch_coords v hv
  have hp : add (add (C 0 0) (mul (C 0 0) (C a 0))) (mul (C 1 0) (C b1 b2)) =
      C b1 b2 := by
    apply Cx.ext <;> simp [add, mul, C]
  have hq : add (add (C 0 0) (mul (C 1 0) (C a 0))) (mul (C 0 0) (C b1 b2)) =
      C a 0 := by
    apply Cx.ext <;> simp [add, mul, C]
  have habs : abs2 (C b1 b2) + abs2 (C a 0) = 1 := by
    simp only [abs2, C]
    linear_combination hu
  unfold applyPauliX PAULI_X
  rw [hbs]
  rw [applyGateNormBloch (C 0 0) (C 1 0) (C 1 0) (C 0 0) (C a 0) (C b1 b2)
    (C b1 b2) (C a 0) hp hq habs]
  congr 1
  refine Vec3.ext ?_ ?_ ?_
  · simp only [mul, conj, C]
    linear_combination hx
  · simp only [mul, conj, C]
    linear_combination -hy
  · simp only [abs2, C]
    linear_combination -hz

lemma applyPauliY_unit (v : Vec3) (hv : v.x * v.x + v.y * v.y + v.z * v.z = 1) :
    applyPauliY v = Except.ok ⟨-v.x, v.y, -v.z⟩ := by
  obtain ⟨a, b1, b2, hbs, hx, hy, hz, hu⟩ := bloch_coords v hv
  have hp : add (add (C 0 0) (mul (C 0 0) (C a 0))) (mul (C 0 (-1)) (C b1 b2)) =
      C b2 (-b1) := by
    apply Cx.ext <;> simp [add, mul, C]
  have hq : add (add (C 0 0) (mul (C 0 1) (C a 0))) (mul (C 0 0) (C b1 b2)) =
      C 0 a := by
    apply Cx.ext <;> simp [add, mul, C]
  have habs : abs2 (C b2 (-b1)) + abs2 (C 0 a) = 1 := by
    simp only [abs2, C]
    linear_combination hu
  unfold applyPauliY PAULI_Y
  rw [hbs]
  rw [applyGateNormBloch (C 0 0) (C 0 (-1)) (C 0 1) (C 0 0) (C a 0) (C b1 b2)
    (C b2 (-b1)) (C 0 a) hp hq habs]
  congr 1
  refine Vec3.ext ?_ ?_ ?_
  · simp only [mul, conj, C]
    linear_combination -hx
  · simp only [mul, conj, C]
    linear_combination hy
  · simp only [abs2, C]
    linear_combination -hz

lemma applyPauliZ_unit (v : Vec3) (hv : v.x * v.x + v.y * v.y + v.z * v.z = 1) :
    applyPauliZ v = Except.ok ⟨-v.x, -v.y, v.z⟩ := by
  obtain ⟨a, b1, b2, hbs, hx, hy, hz, hu⟩ := bloch_coords v hv
  have hp : add (add (C 0 0) (mul (C 1 0) (C a 0))) (mul (C 0 0) (C b1 b2)) =
      C a 0 := by
    apply Cx.ext <;> simp [add, mul, C]
  have hq : add (add (C 0 0) (mul (C 0 0) (C a 0))) (mul (C (-1) 0) (C b1 b2)) =
      C (-b1) (-b2) := by
    apply Cx.ext <;> simp [add, mul, C]
  have habs : abs2 (C a 0) + abs2 (C (-b1) (-b2)) = 1 := by
    simp only [abs2, C]
    linear_combination hu
  unfold applyPauliZ PAULI_Z
  rw [hbs]
  rw [applyGateNormBloch (C 1 0) (C 0 0) (C 0 0) (C (-1) 0) (C a 0) (C b1 b2)
    (C a 0) (C (-b1) (-b2)) hp hq habs]
  congr 1
  refine Vec3.ext ?_ ?_ ?_
  · simp only [mul, conj, C]
    linear_combination -hx
  · simp only [mul, conj, C]
    linear_combination -hy
  · simp only [abs2, C]
    linear_combination hz

lemma H_mul_H : H * H = 1 / 2 := by
  rw [H, div_mul_div_comm, one_mul, Real.mul_self_sqrt (by norm_num)]

lemma applyHadamard_unit (v : Vec3) (hv : v.x * v.x + v.y * v.y + v.z * v.z = 1) :
    applyHadamard v = Except.ok ⟨v.z, -v.y, v.x⟩ := by
  obtain ⟨a, b1, b2, hbs, hx, hy, hz, hu⟩ := bloch_coords v hv
  have hH := H_mul_H
  have hp : add (add (C 0 0) (mul (C H 0) (C a 0))) (mul (C H 0) (C b1 b2)) =
      C (H * (a + b1)) (H * b2) := by
    apply Cx.ext
    all_goals simp [add, mul, C]
    all_goals ring
  have hq : add (add (C 0 0) (mul (C H 0) (C a 0))) (mul (C (-H) 0) (C b1 b2)) =
      C (H * (a - b1)) (-(H * b2)) := by
    apply Cx.ext
    all_goals simp [add, mul, C]
    all_goals ring
  have habs : abs2 (C (H * (a + b1)) (H * b2)) +
      abs2 (C (H * (a - b1)) (-(H * b2))) = 1 := by
    simp only [abs2, C]
    linear_combination (2 * (H * H)) * hu + 2 * hH
  unfold applyHadamard HADAMARD
  rw [hbs]
  rw [applyGateNormBloch (C H 0) (C H 0) (C H 0) (C (-H) 0) (C a 0) (C b1 b2)
    (C (H * (a + b1)) (H * b2)) (C (H * (a - b1)) (-(H * b2))) hp hq habs]
  congr 1
  refine Vec3.ext ?_ ?_ ?_
  · simp only [mul, conj, C]
    linear_combination (2 * (H * H)) * hz + (2 * v.z) * hH
  · simp only [mul, conj, C]
    linear_combination (-2 * (H * H)) * hy - (2 * v.y) * hH
  · simp only [abs2, C]
    linear_combination (2 * (H * H)) * hx + (2 * v.x) * hH

lemma applyPhaseGate_unit (v : Vec3) (theta : ℝ)
    (hv : v.x * v.x + v.y * v.y + v.z * v.z = 1) :
    applyPhaseGate v theta =
      Except.ok ⟨Real.cos theta * v.x - Real.sin theta * v.y,
        Real.sin theta * v.x + Real.cos theta * v.y, v.z⟩ := by
  obtain ⟨a, b1, b2, hbs, hx, hy, hz, hu⟩ := bloch_coords v hv
  have hpy : Real.sin theta ^ 2 + Real.cos theta ^ 2 = 1 :=
    Real.sin_sq_add_cos_sq theta
  have hp : add (add (C 0 0) (mul (C 1 0) (C a 0))) (mul (C 0 0) (C b1 b2)) =
      C a 0 := by
    apply Cx.ext <;> simp [add, mul, C]
  have hq : add (add (C 0 0) (mul (C 0 0) (C a 0)))
        (mul (C (Real.cos theta) (Real.sin theta)) (C b1 b2)) =
      C (Real.cos theta * b1 - Real.sin theta * b2)
        (Real.cos theta * b2 + Real.sin theta * b1) := by
    apply Cx.ext <;> simp [add, mul, C]
  have habs : abs2 (C a 0) +
      abs2 (C (Real.cos theta * b1 - Real.sin theta * b2)
        (Real.cos theta * b2 + Real.sin theta * b1)) = 1 := by
    simp only [abs2, C]
    linear_combination hu + (b1 * b1 + b2 * b2) * hpy
  unfold applyPhaseGate PHASE_GATE
  rw [hbs]
  rw [applyGateNormBloch (C 1 0) (C 0 0) (C 0 0)
    (C (Real.cos theta) (Real.sin theta)) (C a 0) (C b1 b2) (C a 0)
    (C (Real.cos theta * b1 - Real.sin theta * b2)
      (Real.cos theta * b2 + Real.sin theta * b1)) hp hq habs]
  congr 1
  refine Vec3.ext ?_ ?_ ?_
  · simp only [mul, conj, C]
    linear_combination Real.cos theta * hx - Real.sin theta * hy
  · simp only [mul, conj, C]
    linear_combination Real.sin theta * hx + Real.cos theta * hy
  · simp only [abs2, C]
    linear_combination hz - (b1 * b1 + b2 * b2) * hpy

lemma S_GATE_eq_phase : S_GATE = PHASE_GATE (Real.pi / 2) := by
  simp [S_GATE, PHASE_GATE, Real.cos_pi_div_two, Real.sin_pi_div_two]

lemma T_GATE_eq_phase : T_GATE = PHASE_GATE (Real.pi / 4) := rfl

lemma applySGate_eq_phase (v : Vec3) :
    applySGate v = applyPhaseGate v (Real.pi / 2) := by
  unfold applySGate applyPhaseGate
  rw [S_GATE_eq_phase]

lemma applyTGate_eq_phase (v : Vec3) :
    applyTGate v = applyPhaseGate v (Real.pi / 4) := by
  unfold applyTGate applyPhaseGate
  rw [T_GATE_eq_phase]

/-! ### Concrete evaluations at special points -/

lemma atan2_zero_zero : atan2 0 0 = 0 := by
  rw [atan2, show (⟨(0:ℝ), (0:ℝ)⟩ : ℂ) = 0 from by simp [Complex.ext_iff]]
  exact Complex.arg_zero

lemma sqrt_four : Real.sqrt 4 = 2 := by
  rw [show (4:ℝ) = 2 ^ 2 by norm_num]
  exact Real.sqrt_sq (by norm_num)

lemma blochToState_001 : blochToState ⟨0, 0, 1⟩ = [C 1 0, C 0 0] := by
  have h1 : Real.sqrt ((0:ℝ) * 0 + 0 * 0 + 1 * 1) = 1 := by norm_num
  simp only [blochToState, h1]
  rw [if_neg (by norm_num)]
  norm_num [Real.arccos_one, atan2_zero_zero, C]

lemma blochToState_002 : blochToState ⟨0, 0, 2⟩ = [C 1 0, C 0 0] := by
  have h1 : Real.sqrt ((0:ℝ) * 0 + 0 * 0 + 2 * 2) = 2 := by
    rw [show ((0:ℝ) * 0 + 0 * 0 + 2 * 2) = 4 by norm_num]
    exact sqrt_four
  simp only [blochToState, h1]
  rw [if_neg (by norm_num)]
  norm_num [Real.arccos_one, atan2_zero_zero, C]

lemma applyPauliX_002 : applyPauliX ⟨0, 0, 2⟩ = Except.ok ⟨0, 0, -1⟩ := by
  have hp : add (add (C 0 0) (mul (C 0 0) (C 1 0))) (mul (C 1 0) (C 0 0)) =
      C 0 0 := by
    apply Cx.ext <;> simp [add, mul, C]
  have hq : add (add (C 0 0) (mul (C 1 0) (C 1 0))) (mul (C 0 0) (C 0 0)) =
      C 1 0 := by
    apply Cx.ext <;> simp [add, mul, C]
  have habs : abs2 (C 0 0) + abs2 (C 1 0) = 1 := by
    norm_num [abs2, C]
  unfold applyPauliX PAULI_X
  rw [blochToState_002]
  rw [applyGateNormBloch (C 0 0) (C 1 0) (C 1 0) (C 0 0) (C 1 0) (C 0 0)
    (C 0 0) (C 1 0) hp hq habs]
  congr 1
  refine Vec3.ext ?_ ?_ ?_ <;> norm_num [mul, conj, abs2, C]

lemma applyGate_X_ket0 :
    applyGate PAULI_X [C 1 0, C 0 0] = Except.ok [C 0 0, C 1 0] := by
  unfold PAULI_X
  rw [applyGate_two]
  simp [add, mul, C]

/-! ### Claim theorems -/

/-- Claim C1: for every Bloch coordinate `(x,y,z)` with `x²+y²+z² = 1`,
`stateToBloch (blochToState (x,y,z))` returns exactly `(x,y,z)`; in the
real-arithmetic model the round trip is an exact identity, hence within
any floating-point tolerance such as `1e-9`. -/
theorem C1_round_trip (v : Vec3)
    (hv : v.x * v.x + v.y * v.y + v.z * v.z = 1) :
    stateToBloch (blochToState v) = Except.ok v := by
  obtain ⟨a, b1, b2, hbs, hx, hy, hz, hu⟩ := bloch_coords v hv
  rw [hbs, stateToBloch_pair]
  congr 1
  refine Vec3.ext ?_ ?_ ?_
  · simp only [mul, conj, C]
    linear_combination hx
  · simp only [mul, conj, C]
    linear_combination hy
  · simp only [abs2, C]
    linear_combination hz

theorem C1_round_trip_witness :
    stateToBloch (blochToState ⟨0, 0, 1⟩) = Except.ok ⟨0, 0, 1⟩ :=
  C1_round_trip ⟨0, 0, 1⟩ (by norm_num)

/-- Claim C5: whenever `sqrt(x²+y²+z²) < 1e-9` (in particular at `(0,0,0)`),
`blochToState` returns the default `|0⟩` state `[(1,0),(0,0)]`; in this
total real-arithmetic model no error and no NaN can arise. -/
theorem C5_degenerate_default (v : Vec3)
    (hv : Real.sqrt (v.x * v.x + v.y * v.y + v.z * v.z) < 1e-9) :
    blochToState v = [C 1 0, C 0 0] := by
  simp only [blochToState]
  rw [if_pos hv]

theorem C5_degenerate_default_witness :
    blochToState ⟨0, 0, 0⟩ = [C 1 0, C 0 0] :=
  C5_degenerate_default ⟨0, 0, 0⟩ (by norm_num [Real.sqrt_zero])

/-- Claim C6: `stateToBloch` fails with the `invalidDimension` error exactly
when its input does not have 2 amplitudes, and `applyGate` fails with the
`dimensionMismatch` error exactly when the matrix's column count (the length
of its first row) differs from the state vector's length; with matching
dimensions both succeed. -/
theorem C6_dimension_errors :
    (∀ s : List Cx, s.length ≠ 2 →
      stateToBloch s = Except.error MathError.invalidDimension) ∧
    (∀ s : List Cx, s.length = 2 → ∃ b, stateToBloch s = Except.ok b) ∧
    (∀ (row0 : List Cx) (rest : List (List Cx)) (vec : List Cx),
      vec.length ≠ row0.length →
        applyGate (row0 :: rest) vec = Except.error MathError.dimensionMismatch) ∧
    (∀ (row0 : List Cx) (rest : List (List Cx)) (vec : List Cx),
      vec.length = row0.length →
        ∃ out, applyGate (row0 :: rest) vec = Except.ok out) := by
  refine ⟨?_, ?_, ?_, ?_⟩
  · intro s hs
    match s with
    | [] => rfl
    | [a] => rfl
    | [a, b] => exact absurd rfl hs
    | a :: b :: c :: t => rfl
  · intro s hs
    match s with
    | [a, b] => exact ⟨_, stateToBloch_pair a b⟩
    | [] => simp at hs
    | [a] => simp at hs
    | a :: b :: c :: t =>
      exfalso
      simp [List.length_cons] at hs
  · intro row0 rest vec hne
    simp only [applyGate, matrixVectorMultiply]
    rw [if_neg hne]
  · intro row0 rest vec he
    simp only [applyGate, matrixVectorMultiply]
    rw [if_pos he]
    exact ⟨_, rfl⟩

theorem C6_dimension_errors_witness :
    stateToBloch [C 1 0, C 0 0, C 0 0] =
      Except.error MathError.invalidDimension ∧
    applyGate [[C 1 0, C 0 0, C 0 0], [C 0 0, C 1 0, C 0 0], [C 0 0, C 0 0, C 1 0]]
        [C 1 0, C 0 0] = Except.error MathError.dimensionMismatch ∧
    (∃ b, stateToBloch [C 1 0, C 0 0] = Except.ok b) ∧
    (∃ out, applyGate [[C 0 0, C 1 0], [C 1 0, C 0 0]] [C 1 0, C 0 0] =
      Except.ok out) :=
  ⟨C6_dimension_errors.1 _ (by simp),
   C6_dimension_errors.2.2.1 _ _ _ (by simp),
   C6_dimension_errors.2.1 _ (by simp),
   C6_dimension_errors.2.2.2 _ _ _ (by simp)⟩

/-- Claim C7: `normalize` returns its input unchanged when the sum of squared
magnitudes is below `1e-12`, and otherwise scales every component by
`1/sqrt(sum)`, after which the squared magnitudes sum exactly to 1. -/
theorem C7_normalize_spec (vec : List Cx) :
    ((vec.map abs2).sum < 1e-12 → normalize vec = vec) ∧
    (¬ (vec.map abs2).sum < 1e-12 →
      normalize vec =
        vec.map (fun c => scale c (1 / Real.sqrt ((vec.map abs2).sum))) ∧
      ((normalize vec).map abs2).sum = 1) := by
  constructor
  · intro h
    simp only [normalize]
    rw [if_pos h]
  · intro h
    have hpos : (0:ℝ) < (vec.map abs2).sum := by
      by_contra hle
      push_neg at hle
      exact h (lt_of_le_of_lt hle (by norm_num))
    have heq : normalize vec =
        vec.map (fun c => scale c (1 / Real.sqrt ((vec.map abs2).sum))) := by
      simp only [normalize]
      rw [if_neg h]
    refine ⟨heq, ?_⟩
    rw [heq, List.map_map]
    have habs : (abs2 ∘ fun c => scale c (1 / Real.sqrt ((vec.map abs2).sum))) =
        (fun c => (1 / Real.sqrt ((vec.map abs2).sum)) ^ 2 * abs2 c) := by
      funext c
      simp only [Function.comp_apply, abs2, scale, C]
      ring
    rw [habs, List.sum_map_mul_left]
    rw [div_pow, one_pow, Real.sq_sqrt hpos.le]
    field_simp

theorem C7_normalize_spec_witness :
    normalize [] = ([] : List Cx) ∧
    normalize [C 3 4] =
      [C 3 4].map (fun c => scale c (1 / Real.sqrt (([C 3 4].map abs2).sum))) ∧
    ((normalize [C 3 4]).map abs2).sum = 1 :=
  ⟨(C7_normalize_spec []).1 (by norm_num),
   ((C7_normalize_spec [C 3 4]).2 (by norm_num [abs2, C])).1,
   ((C7_normalize_spec [C 3 4]).2 (by norm_num [abs2, C])).2⟩

/-- Claim C8: for every coordinate, the generic phase gate at angle `π/2`
produces exactly the same result as the S gate, and at angle `π/4` exactly
the same result as the T gate. -/
theorem C8_phase_generalizes (v : Vec3) :
    applyPhaseGate v (Real.pi / 2) = applySGate v ∧
    applyPhaseGate v (Real.pi / 4) = applyTGate v :=
  ⟨(applySGate_eq_phase v).symm, (applyTGate_eq_phase v).symm⟩

/-- Claim C9: at the composed coordinate level, Pauli-Z sends `(1,0,0)` to
`(-1,0,0)` and fixes `(0,0,1)`; Pauli-X sends `(0,0,1)` to `(0,0,-1)`; and
Hadamard sends `(0,0,1)` to `(1,0,0)` — all exactly. -/
theorem C9_fixed_points :
    applyPauliZ ⟨1, 0, 0⟩ = Except.ok ⟨-1, 0, 0⟩ ∧
    applyPauliZ ⟨0, 0, 1⟩ = Except.ok ⟨0, 0, 1⟩ ∧
    applyPauliX ⟨0, 0, 1⟩ = Except.ok ⟨0, 0, -1⟩ ∧
    applyHadamard ⟨0, 0, 1⟩ = Except.ok ⟨1, 0, 0⟩ := by
  refine ⟨?_, ?_, ?_, ?_⟩
  · rw [applyPauliZ_unit ⟨1, 0, 0⟩ (by norm_num)]
    norm_num
  · rw [applyPauliZ_unit ⟨0, 0, 1⟩ (by norm_num)]
    norm_num
  · rw [applyPauliX_unit ⟨0, 0, 1⟩ (by norm_num)]
    norm_num
  · rw [applyHadamard_unit ⟨0, 0, 1⟩ (by norm_num)]
    norm_num

/-- Claim C3: every gate of the fixed library (Pauli-X, Pauli-Y, Pauli-Z,
Hadamard, S, T, and the phase gate at any angle), applied through its
composed coordinate-level operation to a coordinate of squared length 1,
returns a coordinate of squared length exactly 1. -/
theorem C3_norm_preservation (v : Vec3)
    (hv : v.x * v.x + v.y * v.y + v.z * v.z = 1) (theta : ℝ) :
    unitOut (applyPauliX v) ∧ unitOut (applyPauliY v) ∧
    unitOut (applyPauliZ v) ∧ unitOut (applyHadamard v) ∧
    unitOut (applySGate v) ∧ unitOut (applyTGate v) ∧
    unitOut (applyPhaseGate v theta) := by
  have hphase : ∀ th : ℝ, unitOut (applyPhaseGate v th) := by
    intro th
    refine ⟨⟨Real.cos th * v.x - Real.sin th * v.y,
      Real.sin th * v.x + Real.cos th * v.y, v.z⟩,
      applyPhaseGate_unit v th hv, ?_⟩
    show (Real.cos th * v.x - Real.sin th * v.y) *
        (Real.cos th * v.x - Real.sin th * v.y) +
      (Real.sin th * v.x + Real.cos th * v.y) *
        (Real.sin th * v.x + Real.cos th * v.y) + v.z * v.z = 1
    have hpy := Real.sin_sq_add_cos_sq th
    linear_combination (v.x * v.x + v.y * v.y) * hpy + hv
  refine ⟨?_, ?_, ?_, ?_, ?_, ?_, hphase theta⟩
  · refine ⟨⟨v.x, -v.y, -v.z⟩, applyPauliX_unit v hv, ?_⟩
    show v.x * v.x + -v.y * -v.y + -v.z * -v.z = 1
    linear_combination hv
  · refine ⟨⟨-v.x, v.y, -v.z⟩, applyPauliY_unit v hv, ?_⟩
    show -v.x * -v.x + v.y * v.y + -v.z * -v.z = 1
    linear_combination hv
  · refine ⟨⟨-v.x, -v.y, v.z⟩, applyPauliZ_unit v hv, ?_⟩
    show -v.x * -v.x + -v.y * -v.y + v.z * v.z = 1
    linear_combination hv
  · refine ⟨⟨v.z, -v.y, v.x⟩, applyHadamard_unit v hv, ?_⟩
    show v.z * v.z + -v.y * -v.y + v.x * v.x = 1
    linear_combination hv
  · rw [applySGate_eq_phase]
    exact hphase _
  · rw [applyTGate_eq_phase]
    exact hphase _

theorem C3_norm_preservation_witness :
    unitOut (applyPauliX ⟨0, 0, 1⟩) ∧ unitOut (applyPauliY ⟨0, 0, 1⟩) ∧
    unitOut (applyPauliZ ⟨0, 0, 1⟩) ∧ unitOut (applyHadamard ⟨0, 0, 1⟩) ∧
    unitOut (applySGate ⟨0, 0, 1⟩) ∧ unitOut (applyTGate ⟨0, 0, 1⟩) ∧
    unitOut (applyPhaseGate ⟨0, 0, 1⟩ 0) :=
  C3_norm_preservation ⟨0, 0, 1⟩ (by norm_num) 0

/-- Claim C4, counterexample: the claim quantifies over EVERY coordinate, but
at the non-unit coordinate `(0,0,2)` applying Pauli-X twice returns
`(0,0,1)`, not `(0,0,2)` — the conversion projects every input onto the
unit sphere, so a non-unit input can never round-trip. -/
theorem C4_involution_counterexample :
    (applyPauliX ⟨0, 0, 2⟩).bind applyPauliX = Except.ok ⟨0, 0, 1⟩ ∧
    (⟨0, 0, 1⟩ : Vec3) ≠ ⟨0, 0, 2⟩ := by
  constructor
  · rw [applyPauliX_002]
    show applyPauliX ⟨0, 0, -1⟩ = Except.ok ⟨0, 0, 1⟩
    rw [applyPauliX_unit ⟨0, 0, -1⟩ (by norm_num)]
    norm_num
  · intro hcon
    have := congrArg Vec3.z hcon
    norm_num at this

/-- Claim C4, amended: for every coordinate of squared length 1, applying
Pauli-X, Pauli-Y, Pauli-Z, or Hadamard twice in succession returns exactly
the original coordinate. -/
theorem C4_involution_unit (v : Vec3)
    (hv : v.x * v.x + v.y * v.y + v.z * v.z = 1) :
    (applyPauliX v).bind applyPauliX = Except.ok v ∧
    (applyPauliY v).bind applyPauliY = Except.ok v ∧
    (applyPauliZ v).bind applyPauliZ = Except.ok v ∧
    (applyHadamard v).bind applyHadamard = Except.ok v := by
  refine ⟨?_, ?_, ?_, ?_⟩
  · rw [applyPauliX_unit v hv]
    show applyPauliX ⟨v.x, -v.y, -v.z⟩ = Except.ok v
    rw [applyPauliX_unit ⟨v.x, -v.y, -v.z⟩
      (by show v.x * v.x + -v.y * -v.y + -v.z * -v.z = 1; linear_combination hv)]
    simp
  · rw [applyPauliY_unit v hv]
    show applyPauliY ⟨-v.x, v.y, -v.z⟩ = Except.ok v
    rw [applyPauliY_unit ⟨-v.x, v.y, -v.z⟩
      (by show -v.x * -v.x + v.y * v.y + -v.z * -v.z = 1; linear_combination hv)]
    simp
  · rw [applyPauliZ_unit v hv]
    show applyPauliZ ⟨-v.x, -v.y, v.z⟩ = Except.ok v
    rw [applyPauliZ_unit ⟨-v.x, -v.y, v.z⟩
      (by show -v.x * -v.x + -v.y * -v.y + v.z * v.z = 1; linear_combination hv)]
    simp
  · rw [applyHadamard_unit v hv]
    show applyHadamard ⟨v.z, -v.y, v.x⟩ = Except.ok v
    rw [applyHadamard_unit ⟨v.z, -v.y, v.x⟩
      (by show v.z * v.z + -v.y * -v.y + v.x * v.x = 1; linear_combination hv)]
    simp

theorem C4_involution_unit_witness :
    (applyPauliX ⟨0, 0, 1⟩).bind applyPauliX = Except.ok ⟨0, 0, 1⟩ ∧
    (applyPauliY ⟨0, 0, 1⟩).bind applyPauliY = Except.ok ⟨0, 0, 1⟩ ∧
    (applyPauliZ ⟨0, 0, 1⟩).bind applyPauliZ = Except.ok ⟨0, 0, 1⟩ ∧
    (applyHadamard ⟨0, 0, 1⟩).bind applyHadamard = Except.ok ⟨0, 0, 1⟩ :=
  C4_involution_unit ⟨0, 0, 1⟩ (by norm_num)

/-- Claim C2, counterexample: `applyAndConvert` does NOT renormalize.  With
the non-unitary matrix `2·I` at input `(0,0,1)`, the source's
`applyAndConvert` returns `(0,0,4)` while the spec's renormalizing
composition returns `(0,0,1)`. -/
theorem C2_applyAndConvert_counterexample :
    applyAndConvert ⟨0, 0, 1⟩ DOUBLE_IDENTITY = Except.ok ⟨0, 0, 4⟩ ∧
    applyAndConvertSpec ⟨0, 0, 1⟩ DOUBLE_IDENTITY = Except.ok ⟨0, 0, 1⟩ ∧
    applyAndConvert ⟨0, 0, 1⟩ DOUBLE_IDENTITY ≠
      applyAndConvertSpec ⟨0, 0, 1⟩ DOUBLE_IDENTITY := by
  have hgate : applyGate DOUBLE_IDENTITY (blochToState ⟨0, 0, 1⟩) =
      Except.ok [C 2 0, C 0 0] := by
    rw [blochToState_001]
    unfold DOUBLE_IDENTITY
    rw [applyGate_two]
    simp [add, mul, C]
  have h1 : applyAndConvert ⟨0, 0, 1⟩ DOUBLE_IDENTITY = Except.ok ⟨0, 0, 4⟩ := by
    unfold applyAndConvert
    rw [hgate]
    show stateToBloch [C 2 0, C 0 0] = _
    rw [stateToBloch_pair]
    congr 1
    refine Vec3.ext ?_ ?_ ?_ <;> norm_num [mul, conj, abs2, C]
  have hnrm : normalize [C 2 0, C 0 0] = [C 1 0, C 0 0] := by
    simp only [normalize]
    rw [show (([C 2 0, C 0 0].map abs2).sum : ℝ) = 4 from by norm_num [abs2, C]]
    rw [if_neg (by norm_num), sqrt_four]
    simp [scale, C]
  have h2 : applyAndConvertSpec ⟨0, 0, 1⟩ DOUBLE_IDENTITY =
      Except.ok ⟨0, 0, 1⟩ := by
    unfold applyAndConvertSpec
    rw [hgate]
    show stateToBloch (normalize [C 2 0, C 0 0]) = _
    rw [hnrm, stateToBloch_pair]
    congr 1
    refine Vec3.ext ?_ ?_ ?_ <;> norm_num [mul, conj, abs2, C]
  refine ⟨h1, h2, ?_⟩
  rw [h1, h2]
  intro hcon
  have h3 : (⟨0, 0, 4⟩ : Vec3) = ⟨0, 0, 1⟩ := Except.ok.inj hcon
  have h4 := congrArg Vec3.z h3
  norm_num at h4

/-- Claim C2, amended: `applyAndConvert(c, M)` equals the composition
`stateToBloch (applyGate M (blochToState c))` — it converts, applies the
matrix, and converts back WITHOUT a renormalization step; consequently it
agrees with the spec's renormalizing composition whenever the intermediate
state `applyGate M (blochToState c)` already has unit norm (as it does for
every unitary gate of the library). -/
theorem C2_applyAndConvert_composition (c : Vec3) (M : List (List Cx)) :
    applyAndConvert c M = (applyGate M (blochToState c)).bind stateToBloch ∧
    (∀ st : List Cx, applyGate M (blochToState c) = Except.ok st →
      (st.map abs2).sum = 1 →
      applyAndConvert c M = applyAndConvertSpec c M) := by
  refine ⟨rfl, ?_⟩
  intro st hst hsum
  unfold applyAndConvert applyAndConvertSpec
  rw [hst]
  show stateToBloch st = stateToBloch (normalize st)
  rw [normalize_unit_sum st hsum]

theorem C2_applyAndConvert_composition_witness :
    applyAndConvert ⟨0, 0, 1⟩ PAULI_X = applyAndConvertSpec ⟨0, 0, 1⟩ PAULI_X :=
  (C2_applyAndConvert_composition ⟨0, 0, 1⟩ PAULI_X).2 [C 0 0, C 1 0]
    (by rw [blochToState_001]; exact applyGate_X_ket0)
    (by norm_num [abs2, C])

lemma blochToState_eval (v : Vec3)
    (h : ¬ Real.sqrt (v.x * v.x + v.y * v.y + v.z * v.z) < 1e-9) :
    blochToState v =
      [C (Real.cos (Real.arccos
          (v.z / Real.sqrt (v.x * v.x + v.y * v.y + v.z * v.z)) / 2)) 0,
       C (Real.sin (Real.arccos
            (v.z / Real.sqrt (v.x * v.x + v.y * v.y + v.z * v.z)) / 2) *
          Real.cos (atan2 (v.y / Real.sqrt (v.x * v.x + v.y * v.y + v.z * v.z))
            (v.x / Real.sqrt (v.x * v.x + v.y * v.y + v.z * v.z))))
         (Real.sin (Real.arccos
            (v.z / Real.sqrt (v.x * v.x + v.y * v.y + v.z * v.z)) / 2) *
          Real.sin (atan2 (v.y / Real.sqrt (v.x * v.x + v.y * v.y + v.z * v.z))
            (v.x / Real.sqrt (v.x * v.x + v.y * v.y + v.z * v.z))))] := by
  simp only [blochToState]
  rw [if_neg h]

/-- Claim C10: for every input coordinate whatsoever, `blochToState` returns
a state of exactly 2 amplitudes whose first amplitude has zero imaginary
part and nonnegative real part, whose squared magnitudes sum exactly to 1,
and which `stateToBloch` therefore accepts (returns `ok`). -/
theorem C10_blochToState_wellformed (v : Vec3) :
    ∃ alpha beta : Cx,
      blochToState v = [alpha, beta] ∧
      alpha.im = 0 ∧ 0 ≤ alpha.re ∧
      abs2 alpha + abs2 beta = 1 ∧
      stateToBloch (blochToState v) =
        Except.ok ⟨2 * (mul (conj alpha) beta).re,
          2 * (mul (conj alpha) beta).im, abs2 alpha - abs2 beta⟩ := by
  by_cases hdeg : Real.sqrt (v.x * v.x + v.y * v.y + v.z * v.z) < 1e-9
  · have hbs : blochToState v = [C 1 0, C 0 0] := by
      simp only [blochToState]
      rw [if_pos hdeg]
    refine ⟨C 1 0, C 0 0, hbs, rfl, by norm_num [C], by norm_num [abs2, C], ?_⟩
    rw [hbs]
    exact stateToBloch_pair _ _
  · have hbs := blochToState_eval v hdeg
    set nrm := Real.sqrt (v.x * v.x + v.y * v.y + v.z * v.z) with hnrmdef
    set th := Real.arccos (v.z / nrm) with hthdef
    set ph := atan2 (v.y / nrm) (v.x / nrm) with hphdef
    refine ⟨C (Real.cos (th / 2)) 0,
      C (Real.sin (th / 2) * Real.cos ph) (Real.sin (th / 2) * Real.sin ph),
      hbs, rfl, ?_, ?_, ?_⟩
    · show (0:ℝ) ≤ Real.cos (th / 2)
      apply Real.cos_nonneg_of_mem_Icc
      rw [Set.mem_Icc]
      constructor
      · have h0 : (0:ℝ) ≤ th := Real.arccos_nonneg _
        have hp := Real.pi_pos
        linarith
      · have h1 : th ≤ Real.pi := Real.arccos_le_pi _
        linarith
    · simp only [abs2, C]
      have hpy := Real.sin_sq_add_cos_sq (th / 2)
      have hph := Real.sin_sq_add_cos_sq ph
      linear_combination (Real.sin (th / 2) * Real.sin (th / 2)) * hph + hpy
    · rw [hbs]
      exact stateToBloch_pair _ _

end

end BlochSim
